import Mathlib

/-!
Shallow embedding of the x5parser crawl orchestration and incremental
price-history engine (src/db.rs, src/parser/pyaterochka.rs,
src/parser/models/pyaterochka.rs), together with proofs settling the
frozen claims about it.

Modelling conventions:
* SQL REAL price values (Rust `f64`) are modelled as `Rat`; the claims
  under verification only compare stored price values for equality, so
  exact rationals preserve the comparison structure of the source.
* The three SQLite tables are modelled as Lean lists of row structures;
  the auto-increment id of the price-history table is the list position.
* Timestamps (`chrono::Utc::now().timestamp()` and the `time` field of
  `CatalogInfoWithTime`) are `Int` parameters supplied by the caller.
-/

set_option maxHeartbeats 1000000

namespace X5

/-- Char-list prefix test, building block of the substring test. -/
def charsStartWith : List Char → List Char → Bool
  | _, [] => true
  | [], _ :: _ => false
  | a :: as, b :: bs => a == b && charsStartWith as bs

/-- Char-list substring occurrence test. -/
def charsContain (hay pat : List Char) : Bool :=
  match hay with
  | [] => pat.isEmpty
  | _ :: rest => charsStartWith hay pat || charsContain rest pat

/-- Model of Rust `str::contains` (`p.name.contains(*v)` in db.rs line 111):
`strContainsSub hay pat` is true when `pat` occurs as a contiguous substring
of `hay`.  UTF-8 is self-synchronising, so byte-level containment on valid
strings coincides with char-level containment. -/
def strContainsSub (hay pat : String) : Bool :=
  charsContain hay.toList pat.toList

/-- `StoreInfo` from parser/models/pyaterochka.rs lines 59-64. -/
structure StoreInfo where
  id : String
  address : String
  city : String
  deriving DecidableEq

/-- `ProductInfo` from parser/models/pyaterochka.rs lines 47-57
(prices modelled as `Rat`). -/
structure ProductInfo where
  id : String
  name : String
  price : Rat
  card_price : Rat
  rating : Option Rat
  rates_count : Option Nat
  image : Option String
  prop : Option String
  deriving DecidableEq

/-- `CatalogInfo` from parser/models/pyaterochka.rs lines 18-24. -/
structure CatalogInfo where
  id : String
  name : String
  brand_list : List String
  products : List ProductInfo
  deriving DecidableEq

/-- `CatalogInfoWithTime` from parser/models/pyaterochka.rs lines 3-7. -/
structure CatalogInfoWithTime where
  info : CatalogInfo
  time : Int
  deriving DecidableEq

/-- Row of the `pyaterochka_stores` table (db.rs lines 18-23). -/
structure StoreRow where
  id : String
  address : String
  city : String
  inserted_at : Int
  deriving DecidableEq

/-- Row of the `pyaterochka_products` table (db.rs lines 24-35). -/
structure ProductRow where
  id : String
  name : String
  category : String
  brand : Option String
  rating : Option Rat
  rates_count : Option Nat
  image : Option String
  prop : Option String
  updated_at : Int
  inserted_at : Int
  deriving DecidableEq

/-- Row of the `pyaterochka_product_price_history` table
(db.rs lines 36-43); the auto-increment primary key is the list position. -/
structure HistRow where
  store_id : String
  product_id : String
  price : Rat
  card_price : Rat
  inserted_at : Int
  deriving DecidableEq

/-- The three tables of the SQLite database (db.rs lines 15-47). -/
structure DB where
  stores : List StoreRow
  products : List ProductRow
  history : List HistRow
  deriving DecidableEq

/-- The empty database produced by the schema bootstrap. -/
def dbEmpty : DB := ⟨[], [], []⟩

/-- `INSERT OR IGNORE INTO pyaterochka_stores` (db.rs lines 58-61). -/
def insertStore (db : DB) (s : StoreInfo) (now : Int) : DB :=
  if db.stores.any (fun r => decide (r.id = s.id)) then db
  else { db with stores := db.stores ++ [⟨s.id, s.address, s.city, now⟩] }

/-- `c.info.brand_list.iter().find(|v| p.name.contains(*v))`
(db.rs line 111): first entry of the catalog brand list occurring as a
substring of the product name. -/
def derivedBrand (brand_list : List String) (name : String) : Option String :=
  brand_list.find? (fun v => strContainsSub name v)

/-- The row value bound by the product upsert statement, db.rs lines 112-123:
category is the catalog name, brand is derived, both timestamps are the
catalog fetch time `c.time`. -/
def productRowOf (c : CatalogInfoWithTime) (p : ProductInfo) : ProductRow :=
  { id := p.id
    name := p.name
    category := c.info.name
    brand := derivedBrand c.info.brand_list p.name
    rating := p.rating
    rates_count := p.rates_count
    image := p.image
    prop := p.prop
    updated_at := c.time
    inserted_at := c.time }

/-- Effect of `ON CONFLICT(id) DO UPDATE SET ...` (db.rs lines 78-86) on a
conflicting row: every listed column takes the excluded (new) value while
`id` and `inserted_at` are kept. -/
def updColumns (q : ProductRow) (c : CatalogInfoWithTime) (p : ProductInfo) : ProductRow :=
  { productRowOf c p with inserted_at := q.inserted_at }

/-- One execution of the prepared product upsert (db.rs lines 64-87,
109-123): insert the row, or on an id conflict update all columns except
`inserted_at`. -/
def upsertProducts (ps : List ProductRow) (c : CatalogInfoWithTime) (p : ProductInfo) :
    List ProductRow :=
  if ps.any (fun q => decide (q.id = p.id)) then
    ps.map (fun q => if q.id = p.id then updColumns q c p else q)
  else ps ++ [productRowOf c p]

/-- The history rows for one `(store_id, product_id)` pair, i.e. the rows
satisfying the `WHERE p.store_id = ?1 AND p.product_id = ?2` condition of
db.rs lines 95-96. -/
def histKeyRows (h : List HistRow) (sid pid : String) : List HistRow :=
  h.filter (fun r => decide (r.store_id = sid) && decide (r.product_id = pid))

/-- The correlated subquery of db.rs lines 97-103:
`SELECT inserted_at ... ORDER BY inserted_at DESC LIMIT 1`, i.e. the maximum
`inserted_at` over the rows of the pair (none when the pair has no rows). -/
def latestTime (h : List HistRow) (sid pid : String) : Option Int :=
  ((histKeyRows h sid pid).map (fun r => r.inserted_at)).max?

/-- The `EXISTS` condition of db.rs lines 92-106: some row of the pair sits
at the latest `inserted_at` and already carries the new `(price, card_price)`. -/
def histSkip (h : List HistRow) (sid pid : String) (price cp : Rat) : Bool :=
  (histKeyRows h sid pid).any (fun r =>
    decide (latestTime h sid pid = some r.inserted_at) &&
    decide (r.price = price) && decide (r.card_price = cp))

/-- One execution of the prepared price-history insert (db.rs lines 89-107,
124-130): append the observation row unless the `EXISTS` condition holds. -/
def insertHistory (h : List HistRow) (sid pid : String) (price cp : Rat) (t : Int) :
    List HistRow :=
  if histSkip h sid pid price cp then h
  else h ++ [⟨sid, pid, price, cp, t⟩]

/-- The flattened iteration of db.rs lines 109-131: for each catalog in
order, for each of its products in order, one `(catalog, product)` entry. -/
def passEntries (catalogs : List CatalogInfoWithTime) :
    List (CatalogInfoWithTime × ProductInfo) :=
  catalogs.flatMap (fun c => c.info.products.map (fun p => (c, p)))

/-- The loop body of db.rs lines 110-131 for one `(catalog, product)` entry:
product upsert followed by conditional history append. -/
def txStep (sid : String) (db : DB) (e : CatalogInfoWithTime × ProductInfo) : DB :=
  let db1 : DB := { db with products := upsertProducts db.products e.1 e.2 }
  { db1 with
    history := insertHistory db1.history sid e.2.id e.2.price e.2.card_price e.1.time }

/-- The successful path of the transaction in `pyaterochka_insert_data`
(db.rs lines 53-137): store insert-or-ignore then the per-product loop. -/
def applyTx (db : DB) (s : StoreInfo) (catalogs : List CatalogInfoWithTime) (now : Int) :
    DB :=
  (passEntries catalogs).foldl (txStep s.id) (insertStore db s now)

/-- Number of SQL statements the transaction executes (one store insert plus
two statements per product entry); used to index injected statement failures. -/
def txStmtCount (catalogs : List CatalogInfoWithTime) : Nat :=
  1 + 2 * (passEntries catalogs).length

/-- `pyaterochka_insert_data` (db.rs lines 53-138).  `failAt` injects a
failure of the n-th executed statement; a failed statement makes the
function return the error, and — per SQLite/rusqlite semantics, the
transaction being dropped without commit — none of the statements of the
transaction take effect on the database visible to the caller. -/
def pyaterochka_insert_data (db : DB) (s : StoreInfo)
    (catalogs : List CatalogInfoWithTime) (now : Int) (failAt : Option Nat) :
    Except Unit DB :=
  match failAt with
  | some n => if n < txStmtCount catalogs then .error () else .ok (applyTx db s catalogs now)
  | none => .ok (applyTx db s catalogs now)

/-- The 17 catalog categories (parser/pyaterochka.rs lines 35-54). -/
inductive Catalog where
  | GotovayaEda
  | OvoshchiFruktyOrekhi
  | MolochnayaProduktsiyaIYaytso
  | KhlebIVypechka
  | MyasoPtitsaKolbasy
  | RybaIMoreprodukty
  | Sladosti
  | SnekiIChipsy
  | Bakaleya
  | ZamorozhennyeProdukty
  | VodaINapitki
  | ZdorovyyVybor
  | DlyaDetey
  | DlyaZhivotnykh
  | KrasotaGigienaApteka
  | StirkaIUborka
  | DlyaDomaIDachi
  deriving DecidableEq

/-- `Catalog::as_catalog_id` (parser/pyaterochka.rs lines 80-100). -/
def Catalog.as_catalog_id : Catalog → String
  | .GotovayaEda => "251C12884"
  | .OvoshchiFruktyOrekhi => "251C12886"
  | .MolochnayaProduktsiyaIYaytso => "251C12887"
  | .KhlebIVypechka => "251C12888"
  | .MyasoPtitsaKolbasy => "251C12889"
  | .RybaIMoreprodukty => "251C12890"
  | .Sladosti => "251C12900"
  | .SnekiIChipsy => "251C12901"
  | .Bakaleya => "251C12902"
  | .ZamorozhennyeProdukty => "251C12903"
  | .VodaINapitki => "251C12904"
  | .ZdorovyyVybor => "251C12905"
  | .DlyaDetey => "251C12906"
  | .DlyaZhivotnykh => "251C12907"
  | .KrasotaGigienaApteka => "251C12908"
  | .StirkaIUborka => "251C12909"
  | .DlyaDomaIDachi => "251C12910"

/-- The fixed category list `MAIN_CATALOG_LIST`
(parser/pyaterochka.rs lines 15-33); the per-store fetch tasks are spawned
by iterating this list in order (lines 273-303). -/
def MAIN_CATALOG_LIST : List Catalog :=
  [.GotovayaEda, .OvoshchiFruktyOrekhi, .MolochnayaProduktsiyaIYaytso,
   .KhlebIVypechka, .MyasoPtitsaKolbasy, .RybaIMoreprodukty, .Sladosti,
   .SnekiIChipsy, .Bakaleya, .ZamorozhennyeProdukty, .VodaINapitki,
   .ZdorovyyVybor, .DlyaDetey, .DlyaZhivotnykh, .KrasotaGigienaApteka,
   .StirkaIUborka, .DlyaDomaIDachi]

/-- The three failure modes of one category-fetch task
(parser/pyaterochka.rs lines 277-298): the bounded wait for the content
element timing out, the content element read failing, or the content not
decoding as the catalog schema. -/
inductive CrawlErr where
  | timeout
  | missingElement
  | decodeFail
  deriving DecidableEq

/-- Environment of one store's catalog crawl (the fan-out of
parser/pyaterochka.rs lines 272-316).  `taskResult` is the outcome each
spawned task would produce (network and page behaviour are environment
choices); `completion` lists task indices in the order the concurrent
tasks happen to finish; `persistFail` injects a statement failure into the
subsequent persistence transaction; `now` is the wall-clock used for the
store row. -/
structure CrawlEnv where
  taskResult : Catalog → Except CrawlErr CatalogInfoWithTime
  completion : List Nat
  persistFail : Option Nat
  now : Int

/-- The task results in launch order: the `for (cn, c) in
MAIN_CATALOG_LIST.iter().enumerate()` loop (lines 273-303) spawns one task
per list position, in list order. -/
def launchResults (env : CrawlEnv) : List (Except CrawlErr CatalogInfoWithTime) :=
  MAIN_CATALOG_LIST.map env.taskResult

/-- Model of `JoinSet::join_all` (line 304-305): the collected outputs of
all spawned tasks, in completion order (tokio's JoinSet yields tasks in the
order they complete, not the order they were spawned). -/
def joinAll (results : List (Except CrawlErr CatalogInfoWithTime)) (completion : List Nat) :
    List (Except CrawlErr CatalogInfoWithTime) :=
  completion.filterMap (fun i => results[i]?)

/-- The value of a successful task result
(`.filter(Result::is_ok).map(Result::unwrap)`). -/
def okValue : Except CrawlErr CatalogInfoWithTime → Option CatalogInfoWithTime
  | .ok c => some c
  | .error _ => none

/-- The `catalogs` vector handed to persistence (lines 304-315):
`join_all` output with failures logged and filtered out, successes
unwrapped, order preserved. -/
def collectCatalogs (env : CrawlEnv) : List CatalogInfoWithTime :=
  (joinAll (launchResults env) env.completion).filterMap okValue

/-- Outcome of the store lookup for one coordinate
(parser/pyaterochka.rs lines 234-262), as chosen by the environment:
`pageErr` — `open_page` failed (content block did not render in time);
`elementErr` — `page.find_element("pre")` failed (the `.unwrap()` panics);
`innerTextErr` — `inner_text()` failed (the `?` propagates the error);
`decodeErr` — the content did not decode as `StoreApiInfo`;
`found` — lookup succeeded with the given store record. -/
inductive LookupOutcome where
  | pageErr
  | elementErr
  | innerTextErr
  | decodeErr
  | found (info : StoreInfo)

/-- Environment of one coordinate iteration of the crawl loop. -/
structure CoordEnv where
  lookup : LookupOutcome
  crawl : CrawlEnv

/-- Observable events of a crawl-loop run. -/
inductive Event where
  | lookupFailed (pass iter : Nat)
  | storeSkipped (pass iter : Nat) (id : String)
  | storeCrawled (pass iter : Nat) (id : String)
  | persistOk (pass iter : Nat) (id : String)
  | persistFailed (pass iter : Nat) (id : String)
  deriving DecidableEq

/-- How one coordinate iteration ends: `next` — continue with the next
coordinate; `fatal` — an error propagated via `?` out of `start_parsing`;
`panicked` — an `unwrap()` panicked, aborting the process. -/
inductive Control where
  | next
  | fatal
  | panicked
  deriving DecidableEq

/-- Result of one coordinate iteration. -/
structure CoordResult where
  events : List Event
  db : DB
  seen : List String
  ctl : Control
  deriving DecidableEq

/-- One iteration of the `for (sn, s) in store_by_coord_urls` loop
(parser/pyaterochka.rs lines 233-316): store lookup, per-pass dedup via the
seen-id set, catalog crawl, persistence.  The `?` on the persistence call
(line 316) turns a persistence error into `fatal`. -/
def runCoord (pass iter : Nat) (db : DB) (seen : List String) (env : CoordEnv) :
    CoordResult :=
  match env.lookup with
  | .pageErr => ⟨[.lookupFailed pass iter], db, seen, .next⟩
  | .elementErr => ⟨[], db, seen, .panicked⟩
  | .innerTextErr => ⟨[], db, seen, .fatal⟩
  | .decodeErr => ⟨[.lookupFailed pass iter], db, seen, .next⟩
  | .found info =>
    if info.id ∈ seen then ⟨[.storeSkipped pass iter info.id], db, seen, .next⟩
    else
      match pyaterochka_insert_data db info (collectCatalogs env.crawl)
          env.crawl.now env.crawl.persistFail with
      | .ok db1 =>
        ⟨[.storeCrawled pass iter info.id, .persistOk pass iter info.id],
         db1, info.id :: seen, .next⟩
      | .error _ =>
        ⟨[.storeCrawled pass iter info.id, .persistFailed pass iter info.id],
         db, info.id :: seen, .fatal⟩

/-- Result of one pass over the coordinate list. -/
structure PassResult where
  events : List Event
  db : DB
  iters : Nat
  ctl : Control
  deriving DecidableEq

/-- One pass of the crawl loop: the whole `for` loop over coordinates
(lines 233-317), threading the database, the per-pass seen-id set, and a
global iteration counter used to time the interrupt signal. -/
def runPass (pass : Nat) (db : DB) (seen : List String) (iters : Nat) :
    List CoordEnv → PassResult
  | [] => ⟨[], db, iters, .next⟩
  | env :: rest =>
    let r := runCoord pass iters db seen env
    match r.ctl with
    | .next =>
      let pr := runPass pass r.db r.seen (iters + 1) rest
      ⟨r.events ++ pr.events, pr.db, pr.iters, pr.ctl⟩
    | c => ⟨r.events, r.db, iters + 1, c⟩

/-- How a (finitely observed) run of the crawl loop ends. -/
inductive RunOutcome where
  | graceful
  | fatal
  | panicked
  | fuelOut
  deriving DecidableEq

/-- Result of a run of the crawl loop. -/
structure RunResult where
  events : List Event
  db : DB
  outcome : RunOutcome
  deriving DecidableEq

/-- Whether the interrupt signal has been delivered by the time `iters`
coordinate iterations have completed.  The signal listener
(parser/pyaterochka.rs lines 210-219) makes the signal observable through
`rx.try_recv()` from its arrival time on; arrival is modelled as a number
of completed iterations. -/
def signalReady (signalAfter : Option Nat) (iters : Nat) : Bool :=
  match signalAfter with
  | none => false
  | some n => decide (n ≤ iters)

/-- The unbounded `loop { ... }` of `start_parsing`
(parser/pyaterochka.rs lines 228-318), observed for finitely many passes
(the list of per-pass environments is the fuel): at the top of each pass
the signal is checked (`if rx.try_recv().is_ok() { return Ok(()) }`,
line 229) and a fresh seen-id set is created (line 232); then the whole
pass runs. -/
def runLoop (signalAfter : Option Nat) :
    Nat → Nat → DB → List (List CoordEnv) → RunResult
  | _, _, db, [] => ⟨[], db, .fuelOut⟩
  | pass, iters, db, envs :: rest =>
    if signalReady signalAfter iters then ⟨[], db, .graceful⟩
    else
      let pr := runPass pass db [] iters envs
      match pr.ctl with
      | .next =>
        let lr := runLoop signalAfter (pass + 1) pr.iters pr.db rest
        ⟨pr.events ++ lr.events, lr.db, lr.outcome⟩
      | .fatal => ⟨pr.events, pr.db, .fatal⟩
      | .panicked => ⟨pr.events, pr.db, .panicked⟩

/-- Store id of a crawl event, if any. -/
def crawlIdOf : Event → Option String
  | .storeCrawled _ _ id => some id
  | _ => none

/-- Store id of a persistence event (success or failure), if any. -/
def persistIdOf : Event → Option String
  | .persistOk _ _ id => some id
  | .persistFailed _ _ id => some id
  | _ => none

/-- Number of store crawls that began at iteration index `n` or later. -/
def crawlsAtOrAfter (n : Nat) (es : List Event) : Nat :=
  (es.filter (fun e => match e with
    | .storeCrawled _ i _ => decide (n ≤ i)
    | _ => false)).length

/-- Cookie payload, modelled opaquely by its serialized form. -/
abbrev Cookie := String

/-- Actions the session-refresh step performs on the interactive browser
context, in order. -/
inductive CookieAction where
  | launchInteractive
  | setCookies (cookies : List Cookie)
  | navigateHome
  | saveCookies (path : String)
  | closeInteractive
  deriving DecidableEq

/-- The fixed default cookie file name (`unwrap_or("pyaterochka_cookies")`,
parser/pyaterochka.rs line 171). -/
def DEFAULT_COOKIES_PATH : String := "pyaterochka_cookies"

/-- `set_cookies_from_path` (parser/pyaterochka.rs lines 131-144): if no
file exists at `path`, do nothing; otherwise read it, decode it as a cookie
list (a decode failure propagates via `?`), and set the cookies on the
context when the decoded list is non-empty.  `fs` maps a path to its
contents when a file exists there; `parse` models the JSON decode. -/
def set_cookies_from_path (fs : String → Option String)
    (parse : String → Option (List Cookie)) (path : String) :
    Except Unit (List CookieAction) :=
  match fs path with
  | none => .ok []
  | some contents =>
    match parse contents with
    | none => .error ()
    | some cookies =>
      if cookies.isEmpty then .ok [] else .ok [.setCookies cookies]

/-- `pyaterochka_update_cookies` together with
`pyaterochka_update_cookies_with_borwser`
(parser/pyaterochka.rs lines 146-196): launch the interactive (non-headless)
browser; only when a cookie store path is configured (`if let Some(path)`,
line 187), seed the context from that file; then navigate to the home page,
poll until the URL settles, read the cookie jar back and save it to the
configured path or, failing that, the default filename; finally close the
interactive browser. -/
def pyaterochka_update_cookies (fs : String → Option String)
    (parse : String → Option (List Cookie)) (cookies_store_path : Option String) :
    Except Unit (List CookieAction) :=
  match cookies_store_path with
  | some path =>
    match set_cookies_from_path fs parse path with
    | .error e => .error e
    | .ok seed =>
      .ok ([.launchInteractive] ++ seed ++
        [.navigateHome, .saveCookies path, .closeInteractive])
  | none =>
    .ok [.launchInteractive, .navigateHome,
      .saveCookies DEFAULT_COOKIES_PATH, .closeInteractive]

/-- `SELECT` of the row of the products table with a given primary key. -/
def productsFind (ps : List ProductRow) (pid : String) : Option ProductRow :=
  ps.find? (fun q => decide (q.id = pid))

/-- The product-upsert step as a function of the products table alone. -/
def upsertP (ps : List ProductRow) (e : CatalogInfoWithTime × ProductInfo) :
    List ProductRow :=
  upsertProducts ps e.1 e.2

/-- The last `(catalog, product)` entry of a pass carrying a given product
id — the occurrence whose upsert wins within the pass. -/
def lastMatch (es : List (CatalogInfoWithTime × ProductInfo)) (pid : String) :
    Option (CatalogInfoWithTime × ProductInfo) :=
  es.reverse.find? (fun e => decide (e.2.id = pid))

/-- Store record "A" used in concrete runs. -/
def infoA : StoreInfo := ⟨"A", "addr a", "city"⟩

/-- Store record "B" used in concrete runs. -/
def infoB : StoreInfo := ⟨"B", "addr b", "city"⟩

/-- A crawl environment whose tasks all fail, with no completions and no
injected persistence failure: the store iteration then persists an empty
catalog list. -/
def trivialCrawl : CrawlEnv := ⟨fun _ => .error .timeout, [], none, 0⟩

/-- Coordinate resolving to store "A", trivial crawl. -/
def coordA : CoordEnv := ⟨.found infoA, trivialCrawl⟩

/-- Coordinate resolving to store "B", trivial crawl. -/
def coordB : CoordEnv := ⟨.found infoB, trivialCrawl⟩

/-- Coordinate resolving to store "A" whose persistence transaction fails
at its first statement. -/
def coordAFail : CoordEnv := ⟨.found infoA, ⟨fun _ => .error .timeout, [], some 0, 0⟩⟩

/-- Coordinate whose store-lookup content element read fails after a
successful wait (the `.unwrap()` on `find_element` panics). -/
def coordElemErr : CoordEnv := ⟨.elementErr, trivialCrawl⟩

/-- A minimal successful catalog payload for a category, tagged with the
category's catalog id. -/
def okCat (c : Catalog) : CatalogInfoWithTime :=
  ⟨⟨c.as_catalog_id, "n", [], []⟩, 3⟩

/-- A crawl environment in which every task succeeds but the tasks launched
at positions 0 and 1 finish in swapped order. -/
def cenvSwapped : CrawlEnv :=
  { taskResult := fun c => .ok (okCat c)
    completion := [1, 0, 2, 3, 4, 5, 6, 7, 8, 9, 10, 11, 12, 13, 14, 15, 16]
    persistFail := none
    now := 0 }

/-- A crawl environment in which exactly 2 of the 17 tasks fail. -/
def cenvTwoFail : CrawlEnv :=
  { taskResult := fun c => match c with
      | .GotovayaEda => .error .timeout
      | .Sladosti => .error .missingElement
      | c => .ok (okCat c)
    completion := List.range 17
    persistFail := none
    now := 0 }

/-- The run refuting C2: two coordinates resolving to distinct stores,
the first store's persistence transaction failing. -/
def c2run : RunResult := runLoop none 0 0 dbEmpty [[coordAFail, coordB]]

/-- The run refuting C3: two coordinates resolving to distinct stores "A"
and "B", the interrupt signal delivered once one store iteration has
completed (so before the second store iteration begins). -/
def c3run : RunResult :=
  runLoop (some 1) 0 0 dbEmpty [[coordA, coordB], [coordA, coordB]]

/-- The run refuting C7: the first coordinate's content-element read fails
after a successful wait; a second coordinate would resolve to store "B". -/
def c7run : RunResult := runLoop none 0 0 dbEmpty [[coordElemErr, coordB]]

/-- A file system with a decodable, non-empty cookie file at the default
cookie path (and nothing else). -/
def fsDefaultCookie : String → Option String :=
  fun p => if p = DEFAULT_COOKIES_PATH then some "[c]" else none

/-- The decode oracle matching `fsDefaultCookie`'s file contents. -/
def parseOneCookie : String → Option (List Cookie) :=
  fun s => if s = "[c]" then some ["c1"] else none

/-! ### Lemmas about the price-history change rule -/

theorem int_max?_spec {xs : List Int} {a : Int} :
    xs.max? = some a ↔ a ∈ xs ∧ ∀ b ∈ xs, b ≤ a := by
  haveI anti : Std.Antisymm (fun x y : Int => x ≤ y) :=
    ⟨fun h1 h2 => le_antisymm h1 h2⟩
  exact List.max?_eq_some_iff (fun _ => le_refl _) (fun x y => max_choice x y)
    (fun _ _ _ => max_le_iff)

theorem latestTime_of_strict {h : List HistRow} {sid pid : String} {r : HistRow}
    (hr : r ∈ histKeyRows h sid pid)
    (hs : ∀ q ∈ histKeyRows h sid pid, q ≠ r → q.inserted_at < r.inserted_at) :
    latestTime h sid pid = some r.inserted_at := by
  rw [latestTime, int_max?_spec]
  refine ⟨List.mem_map_of_mem _ hr, ?_⟩
  intro b hb
  obtain ⟨q, hq, rfl⟩ := List.mem_map.1 hb
  by_cases hqr : q = r
  · subst hqr; exact le_refl _
  · exact le_of_lt (hs q hq hqr)

theorem histSkip_iff_of_strict {h : List HistRow} {sid pid : String} {r : HistRow}
    {price cp : Rat}
    (hr : r ∈ histKeyRows h sid pid)
    (hs : ∀ q ∈ histKeyRows h sid pid, q ≠ r → q.inserted_at < r.inserted_at) :
    histSkip h sid pid price cp = true ↔ (r.price = price ∧ r.card_price = cp) := by
  have hlatest := latestTime_of_strict hr hs
  rw [histSkip, List.any_eq_true]
  constructor
  · rintro ⟨x, hx, hpred⟩
    simp only [Bool.and_eq_true, decide_eq_true_eq] at hpred
    obtain ⟨⟨hlt, hp⟩, hc⟩ := hpred
    have hxt : x.inserted_at = r.inserted_at := by
      rw [hlatest] at hlt
      exact (Option.some.inj hlt).symm
    have hxr : x = r := by
      by_contra hne
      exact absurd hxt (ne_of_lt (hs x hx hne))
    subst hxr
    exact ⟨hp, hc⟩
  · rintro ⟨hp, hc⟩
    exact ⟨r, hr, by simp [hlatest, hp, hc]⟩

/-- C1: for every `(store_id, product_id)` pair, persisting a product
observation appends a price-history row if and only if no history row
exists for the pair or the single most-recent history row for the pair has
a different `(price, card_price)`; an observation equal to the latest
recorded values appends zero rows, a changed observation appends exactly
one row, and the oscillation `(100,90) → (95,90) → (100,90)` appends three
rows total. -/
theorem C1_price_history_change_rule :
    (∀ (h : List HistRow) (sid pid : String) (price cp : Rat) (t : Int),
      histKeyRows h sid pid = [] →
      insertHistory h sid pid price cp t = h ++ [⟨sid, pid, price, cp, t⟩]) ∧
    (∀ (h : List HistRow) (sid pid : String) (price cp : Rat) (t : Int) (r : HistRow),
      r ∈ histKeyRows h sid pid →
      (∀ q ∈ histKeyRows h sid pid, q ≠ r → q.inserted_at < r.inserted_at) →
      ((r.price = price ∧ r.card_price = cp →
          insertHistory h sid pid price cp t = h) ∧
       (¬(r.price = price ∧ r.card_price = cp) →
          insertHistory h sid pid price cp t = h ++ [⟨sid, pid, price, cp, t⟩]))) ∧
    (insertHistory (insertHistory (insertHistory [] "s" "p" 100 90 1)
      "s" "p" 95 90 2) "s" "p" 100 90 3).length = 3 := by
  refine ⟨?_, ?_, by decide⟩
  · intro h sid pid price cp t hempty
    have hskip : histSkip h sid pid price cp = false := by
      rw [histSkip, hempty]
      rfl
    rw [insertHistory, hskip]
    rfl
  · intro h sid pid price cp t r hr hs
    have hiff := @histSkip_iff_of_strict h sid pid r price cp hr hs
    constructor
    · intro hpc
      rw [insertHistory, hiff.2 hpc]
      rfl
    · intro hne
      have hskip : histSkip h sid pid price cp = false := by
        cases hv : histSkip h sid pid price cp
        · rfl
        · exact absurd (hiff.1 hv) hne
      rw [insertHistory, hskip]
      rfl

/-- Witness for C1: on an empty history the observation is appended. -/
theorem C1_witness :
    insertHistory [] "s" "p" (100 : Rat) 90 7 = [] ++ [⟨"s", "p", 100, 90, 7⟩] :=
  C1_price_history_change_rule.1 [] "s" "p" 100 90 7 rfl

/-! ### Lemmas about the product upsert -/

theorem updColumns_id (q : ProductRow) (c : CatalogInfoWithTime) (p : ProductInfo) :
    (updColumns q c p).id = p.id := rfl

theorem productsFind_map_upd {ps : List ProductRow} {c : CatalogInfoWithTime}
    {p : ProductInfo} {q : ProductRow}
    (hf : productsFind ps p.id = some q) :
    productsFind (ps.map (fun x => if x.id = p.id then updColumns x c p else x)) p.id =
      some (updColumns q c p) := by
  induction ps with
  | nil => simp [productsFind] at hf
  | cons a as ih =>
    by_cases ha : a.id = p.id
    · have hq : q = a := by
        rw [productsFind, List.find?_cons_of_pos _ (by simp [ha])] at hf
        exact (Option.some.inj hf).symm
      subst hq
      rw [List.map_cons, if_pos ha, productsFind,
        List.find?_cons_of_pos _ (by simp [updColumns_id])]
    · rw [productsFind, List.find?_cons_of_neg _ (by simp [ha])] at hf
      rw [List.map_cons, if_neg ha, productsFind,
        List.find?_cons_of_neg _ (by simp [ha])]
      exact ih hf

theorem productsFind_map_other {ps : List ProductRow} {c : CatalogInfoWithTime}
    {p : ProductInfo} {pid : String} (hne : pid ≠ p.id) :
    productsFind (ps.map (fun x => if x.id = p.id then updColumns x c p else x)) pid =
      productsFind ps pid := by
  induction ps with
  | nil => rfl
  | cons a as ih =>
    by_cases ha : a.id = p.id
    · have h1 : ¬ a.id = pid := by rw [ha]; exact fun h => hne h.symm
      have h2 : ¬ (updColumns a c p).id = pid := by
        rw [updColumns_id]; exact fun h => hne h.symm
      rw [List.map_cons, if_pos ha, productsFind,
        List.find?_cons_of_neg _ (by simp [h2]), productsFind,
        List.find?_cons_of_neg _ (by simp [h1])]
      exact ih
    · rw [List.map_cons, if_neg ha]
      by_cases hp : a.id = pid
      · rw [productsFind, List.find?_cons_of_pos _ (by simp [hp]), productsFind,
          List.find?_cons_of_pos _ (by simp [hp])]
      · rw [productsFind, List.find?_cons_of_neg _ (by simp [hp]), productsFind,
          List.find?_cons_of_neg _ (by simp [hp])]
        exact ih

theorem any_id_iff_productsFind {ps : List ProductRow} {pid : String} :
    ps.any (fun q => decide (q.id = pid)) = true ↔ (productsFind ps pid).isSome := by
  rw [productsFind, List.find?_isSome, List.any_eq_true]

theorem productsFind_upsert_self (ps : List ProductRow) (c : CatalogInfoWithTime)
    (p : ProductInfo) :
    productsFind (upsertProducts ps c p) p.id =
      some (match productsFind ps p.id with
            | some q => updColumns q c p
            | none => productRowOf c p) := by
  rw [upsertProducts]
  by_cases hany : ps.any (fun q => decide (q.id = p.id)) = true
  · rw [if_pos hany]
    obtain ⟨q, hq⟩ := Option.isSome_iff_exists.1 (any_id_iff_productsFind.1 hany)
    rw [hq]
    exact productsFind_map_upd hq
  · rw [if_neg hany]
    have hnone : productsFind ps p.id = none := by
      cases hv : productsFind ps p.id
      · rfl
      · exact absurd (any_id_iff_productsFind.2 (by rw [hv]; rfl)) hany
    rw [hnone, productsFind, List.find?_append]
    rw [productsFind] at hnone
    rw [hnone, Option.none_or, List.find?_cons_of_pos _ (by simp [productRowOf])]

theorem productsFind_upsert_other {ps : List ProductRow} {c : CatalogInfoWithTime}
    {p : ProductInfo} {pid : String} (hne : pid ≠ p.id) :
    productsFind (upsertProducts ps c p) pid = productsFind ps pid := by
  rw [upsertProducts]
  by_cases hany : ps.any (fun q => decide (q.id = p.id)) = true
  · rw [if_pos hany]
    exact productsFind_map_other hne
  · rw [if_neg hany, productsFind, List.find?_append, productsFind]
    have hlast : List.find? (fun q => decide (q.id = pid)) [productRowOf c p] = none := by
      rw [List.find?_eq_none]
      intro x hx
      rw [List.mem_singleton] at hx
      subst hx
      simp only [decide_eq_true_eq]
      exact fun h => hne h.symm
    rw [hlast, Option.or_none]

/-- C9: for every product, the persisted brand is an entry of the catalog's
brand list that occurs as a substring of the product name, and `none` when
no entry of the brand list is a substring of the name; brand list
`["Acme", "Globex"]` with product name "Acme Widget 200g" yields
`some "Acme"`, and "Generic Widget" yields `none`. -/
theorem C9_brand_derivation :
    (∀ (bl : List String) (nm b : String),
      derivedBrand bl nm = some b → b ∈ bl ∧ strContainsSub nm b = true) ∧
    (∀ (bl : List String) (nm : String),
      derivedBrand bl nm = none → ∀ b ∈ bl, strContainsSub nm b = false) ∧
    (∀ (ps : List ProductRow) (c : CatalogInfoWithTime) (p : ProductInfo),
      ∃ r, productsFind (upsertProducts ps c p) p.id = some r ∧
        r.brand = derivedBrand c.info.brand_list p.name) ∧
    derivedBrand ["Acme", "Globex"] "Acme Widget 200g" = some "Acme" ∧
    derivedBrand ["Acme", "Globex"] "Generic Widget" = none := by
  refine ⟨?_, ?_, ?_, by decide, by decide⟩
  · intro bl nm b hb
    exact ⟨List.mem_of_find?_eq_some hb, List.find?_some hb⟩
  · intro bl nm hnone b hmem
    have hnp := List.find?_eq_none.1 hnone b hmem
    cases hv : strContainsSub nm b
    · rfl
    · exact absurd hv hnp
  · intro ps c p
    refine ⟨_, productsFind_upsert_self ps c p, ?_⟩
    cases productsFind ps p.id
    · rfl
    · rfl

/-- Witness for C9: the derived brand "Acme" is a brand-list entry occurring
in the product name. -/
theorem C9_witness :
    "Acme" ∈ ["Acme", "Globex"] ∧ strContainsSub "Acme Widget 200g" "Acme" = true :=
  C9_brand_derivation.1 ["Acme", "Globex"] "Acme Widget 200g" "Acme" (by decide)

/-! ### The product table through a whole transaction -/

theorem lastMatch_cons (e : CatalogInfoWithTime × ProductInfo)
    (es : List (CatalogInfoWithTime × ProductInfo)) (pid : String) :
    lastMatch (e :: es) pid =
      (lastMatch es pid).or (if e.2.id = pid then some e else none) := by
  rw [lastMatch, List.reverse_cons, List.find?_append, lastMatch]
  congr 1
  by_cases he : e.2.id = pid
  · rw [List.find?_cons_of_pos _ (by simp [he]), if_pos he]
  · rw [List.find?_cons_of_neg _ (by simp [he]), if_neg he]
    rfl

theorem insertStore_products (db : DB) (s : StoreInfo) (now : Int) :
    (insertStore db s now).products = db.products := by
  rw [insertStore]
  split <;> rfl

theorem foldl_txStep_products (es : List (CatalogInfoWithTime × ProductInfo)) :
    ∀ (db : DB) (sid : String),
    (es.foldl (txStep sid) db).products = es.foldl upsertP db.products := by
  induction es with
  | nil => intro db sid; rfl
  | cons e es ih =>
    intro db sid
    rw [List.foldl_cons, List.foldl_cons, ih]
    rfl

theorem applyTx_products (db : DB) (s : StoreInfo)
    (catalogs : List CatalogInfoWithTime) (now : Int) :
    (applyTx db s catalogs now).products =
      (passEntries catalogs).foldl upsertP db.products := by
  rw [applyTx, foldl_txStep_products, insertStore_products]

theorem foldl_upsertP_find (es : List (CatalogInfoWithTime × ProductInfo)) :
    ∀ (ps : List ProductRow) (pid : String) (q : ProductRow),
    productsFind ps pid = some q →
    ∃ q2, productsFind (es.foldl upsertP ps) pid = some q2 ∧
      q2.inserted_at = q.inserted_at ∧
      (∀ e, lastMatch es pid = some e → q2 = updColumns q e.1 e.2) ∧
      (lastMatch es pid = none → q2 = q) := by
  induction es with
  | nil =>
    intro ps pid q hf
    refine ⟨q, hf, rfl, ?_, fun _ => rfl⟩
    intro e he
    simp [lastMatch] at he
  | cons e es ih =>
    intro ps pid q hf
    rw [List.foldl_cons]
    by_cases he : e.2.id = pid
    · have hf2 : productsFind (upsertP ps e) pid = some (updColumns q e.1 e.2) := by
        subst he
        show productsFind (upsertProducts ps e.1 e.2) e.2.id =
          some (updColumns q e.1 e.2)
        rw [productsFind_upsert_self, hf]
      obtain ⟨q2, hfind, hins, hsome, hnone⟩ :=
        ih (upsertP ps e) pid (updColumns q e.1 e.2) hf2
      refine ⟨q2, hfind, hins, ?_, ?_⟩
      · intro e3 he3
        rw [lastMatch_cons, if_pos he] at he3
        cases hv : lastMatch es pid with
        | some e2 =>
          rw [hv, Option.or_some] at he3
          obtain rfl := Option.some.inj he3
          exact hsome e2 hv
        | none =>
          rw [hv, Option.none_or] at he3
          obtain rfl := Option.some.inj he3
          exact hnone hv
      · intro hn
        rw [lastMatch_cons, if_pos he] at hn
        cases hv : lastMatch es pid with
        | some e2 =>
          rw [hv, Option.or_some] at hn
          exact Option.noConfusion hn
        | none =>
          rw [hv, Option.none_or] at hn
          exact Option.noConfusion hn
    · have hne : pid ≠ e.2.id := fun hh => he hh.symm
      have hf2 : productsFind (upsertP ps e) pid = some q := by
        show productsFind (upsertProducts ps e.1 e.2) pid = some q
        rw [productsFind_upsert_other hne]
        exact hf
      obtain ⟨q2, hfind, hins, hsome, hnone⟩ := ih (upsertP ps e) pid q hf2
      refine ⟨q2, hfind, hins, ?_, ?_⟩
      · intro e3 he3
        rw [lastMatch_cons, if_neg he, Option.or_none] at he3
        exact hsome e3 he3
      · intro hn
        rw [lastMatch_cons, if_neg he, Option.or_none] at hn
        exact hnone hn

/-! ### Lemmas about the per-store catalog fan-out -/

theorem range_filterMap_getElem {α : Type} (l : List α) :
    (List.range l.length).filterMap (fun i => l[i]?) = l := by
  induction l with
  | nil => rfl
  | cons a t ih =>
    rw [List.length_cons, List.range_succ_eq_map,
      List.filterMap_cons_some List.getElem?_cons_zero, List.filterMap_map]
    have hfun : ((fun i => (a :: t)[i]?) ∘ Nat.succ) = (fun i : Nat => t[i]?) :=
      funext fun i => List.getElem?_cons_succ
    rw [hfun, ih]

theorem joinAll_perm {results : List (Except CrawlErr CatalogInfoWithTime)}
    {completion : List Nat}
    (hp : completion.Perm (List.range results.length)) :
    (joinAll results completion).Perm results := by
  have h1 := hp.filterMap (fun i => results[i]?)
  rw [range_filterMap_getElem] at h1
  exact h1

theorem joinAll_eq_map {results : List (Except CrawlErr CatalogInfoWithTime)}
    {completion : List Nat}
    (hb : ∀ i ∈ completion, i < results.length) :
    joinAll results completion =
      completion.map (fun i => results.getD i (.error .timeout)) := by
  induction completion with
  | nil => rfl
  | cons i is ih =>
    have hi : i < results.length := hb i (List.mem_cons_self i is)
    obtain ⟨x, hx⟩ : ∃ x, results[i]? = some x :=
      ⟨results[i], List.getElem?_eq_getElem hi⟩
    rw [joinAll, List.filterMap_cons_some hx, List.map_cons,
      List.getD_eq_getElem?_getD, hx]
    exact congrArg (x :: ·) (ih (fun j hj => hb j (List.mem_cons_of_mem i hj)))

theorem filterMap_okValue_length (l : List (Except CrawlErr CatalogInfoWithTime)) :
    (l.filterMap okValue).length = l.countP (fun r => r.isOk) := by
  induction l with
  | nil => rfl
  | cons r t ih =>
    cases r with
    | ok c =>
      rw [List.filterMap_cons_some (by rfl), List.length_cons, ih,
        List.countP_cons_of_pos _ _ (by rfl)]
    | error e =>
      rw [List.filterMap_cons_none (by rfl), ih,
        List.countP_cons_of_neg]
      intro hc
      exact Bool.noConfusion hc

theorem mem_filterMap_okValue {l : List (Except CrawlErr CatalogInfoWithTime)}
    {c : CatalogInfoWithTime} :
    c ∈ l.filterMap okValue ↔ .ok c ∈ l := by
  rw [List.mem_filterMap]
  constructor
  · rintro ⟨r, hr, hv⟩
    cases r with
    | ok c2 =>
      have : c2 = c := Option.some.inj hv
      subst this
      exact hr
    | error e => exact Option.noConfusion hv
  · intro h
    exact ⟨.ok c, h, rfl⟩

/-- Counterexample to C4: all 17 tasks succeed, but with completion order
swapping the first two tasks the aggregated catalog list handed to
persistence is not in launch (category-list) order — `join_all` yields
results in completion order. -/
theorem C4_counterexample :
    (collectCatalogs cenvSwapped).length = 17 ∧
    (collectCatalogs cenvSwapped).map (fun c => c.info.id) ≠
      MAIN_CATALOG_LIST.map Catalog.as_catalog_id := by
  constructor
  · decide
  · decide

/-- C4 (amended): the per-category tasks are launched in the fixed
category-list order (`launchResults` maps `MAIN_CATALOG_LIST` positionally)
and result aggregation waits for all launched tasks — the aggregate is a
permutation of all 17 launched task results — but the aggregated results
are consumed downstream in completion order: the j-th consumed result is
the result of the task at launch position `completion[j]`. -/
theorem C4_launch_order_and_completion_order_consumption :
    ∀ (env : CrawlEnv),
      env.completion.Perm (List.range 17) →
      (joinAll (launchResults env) env.completion).length = 17 ∧
      (joinAll (launchResults env) env.completion).Perm (launchResults env) ∧
      joinAll (launchResults env) env.completion =
        env.completion.map (fun i => (launchResults env).getD i (.error .timeout)) := by
  intro env hp
  have hlen : (launchResults env).length = 17 := rfl
  have hperm : (joinAll (launchResults env) env.completion).Perm (launchResults env) :=
    joinAll_perm (by rw [hlen]; exact hp)
  refine ⟨by rw [hperm.length_eq, hlen], hperm, ?_⟩
  apply joinAll_eq_map
  intro i hi
  rw [hlen]
  have := hp.mem_iff.1 hi
  exact List.mem_range.1 this

/-- Witness for C4 (amended), at the swapped-completion environment. -/
theorem C4_witness :
    (joinAll (launchResults cenvSwapped) cenvSwapped.completion).length = 17 ∧
    (joinAll (launchResults cenvSwapped) cenvSwapped.completion).Perm
      (launchResults cenvSwapped) ∧
    joinAll (launchResults cenvSwapped) cenvSwapped.completion =
      cenvSwapped.completion.map
        (fun i => (launchResults cenvSwapped).getD i (.error .timeout)) :=
  C4_launch_order_and_completion_order_consumption cenvSwapped (by decide)

/-- C5: if k of the 17 per-category fetch tasks fail, the failures are
isolated: the scheduler still waits for and collects all 17 task results,
exactly the 17−k successful snapshots are returned to the caller (a
snapshot is returned iff its task succeeded), and the persistence call
still succeeds on the returned snapshots. -/
theorem C5_partial_failure_isolation :
    ∀ (env : CrawlEnv),
      env.completion.Perm (List.range 17) →
      (joinAll (launchResults env) env.completion).length = 17 ∧
      (collectCatalogs env).length =
        17 - (launchResults env).countP (fun r => !r.isOk) ∧
      (∀ c, c ∈ collectCatalogs env ↔ .ok c ∈ launchResults env) ∧
      (∀ (db : DB) (info : StoreInfo), ∃ db2,
        pyaterochka_insert_data db info (collectCatalogs env) env.now none = .ok db2) := by
  intro env hp
  have hlen : (launchResults env).length = 17 := rfl
  have hperm : (joinAll (launchResults env) env.completion).Perm (launchResults env) :=
    joinAll_perm (by rw [hlen]; exact hp)
  refine ⟨by rw [hperm.length_eq, hlen], ?_, ?_, ?_⟩
  · rw [collectCatalogs, filterMap_okValue_length,
      hperm.countP_eq (fun r => r.isOk)]
    have hsplit := List.length_eq_countP_add_countP
      (p := fun r : Except CrawlErr CatalogInfoWithTime => r.isOk) (launchResults env)
    rw [hlen] at hsplit
    have hnot : (launchResults env).countP
        (fun r => !r.isOk) = (launchResults env).countP
        (fun r => decide ¬ r.isOk = true) := by
      apply List.countP_congr
      intro r _
      cases r <;> simp [Except.isOk]
    rw [hnot]
    omega
  · intro c
    rw [collectCatalogs, mem_filterMap_okValue]
    exact hperm.mem_iff
  · intro db info
    exact ⟨applyTx db info (collectCatalogs env) env.now, rfl⟩

/-- Witness for C5, at an environment with exactly 2 of 17 tasks failing:
15 snapshots are returned. -/
theorem C5_witness :
    ((joinAll (launchResults cenvTwoFail) cenvTwoFail.completion).length = 17 ∧
      (collectCatalogs cenvTwoFail).length =
        17 - (launchResults cenvTwoFail).countP (fun r => !r.isOk) ∧
      (∀ c, c ∈ collectCatalogs cenvTwoFail ↔ .ok c ∈ launchResults cenvTwoFail) ∧
      (∀ (db : DB) (info : StoreInfo), ∃ db2,
        pyaterochka_insert_data db info (collectCatalogs cenvTwoFail)
          cenvTwoFail.now none = .ok db2)) ∧
    (collectCatalogs cenvTwoFail).length = 15 :=
  ⟨C5_partial_failure_isolation cenvTwoFail (List.Perm.refl _), by decide⟩

/-- C10: for every product id already present in the products table, a
subsequent persistence call updates the columns name, category, brand,
rating, rates_count, image, property and updated_at (taking the values of
the last occurrence of that id in the pass), but leaves the row's
inserted_at column unchanged from the value written at the row's first
insertion.  (`updColumns q e.1 e.2` is by definition the row whose listed
columns come from entry `e` and whose inserted_at is `q.inserted_at`.) -/
theorem C10_upsert_keeps_inserted_at :
    ∀ (db : DB) (s : StoreInfo) (catalogs : List CatalogInfoWithTime) (now : Int)
      (pid : String) (q : ProductRow) (db2 : DB),
      productsFind db.products pid = some q →
      pyaterochka_insert_data db s catalogs now none = .ok db2 →
      ∃ q2, productsFind db2.products pid = some q2 ∧
        q2.inserted_at = q.inserted_at ∧
        (∀ e, lastMatch (passEntries catalogs) pid = some e →
          q2 = updColumns q e.1 e.2) ∧
        (lastMatch (passEntries catalogs) pid = none → q2 = q) := by
  intro db s catalogs now pid q db2 hf hok
  have hdb2 : db2 = applyTx db s catalogs now := by
    rw [pyaterochka_insert_data] at hok
    exact (Except.ok.inj hok).symm
  subst hdb2
  rw [applyTx_products]
  exact foldl_upsertP_find (passEntries catalogs) db.products pid q hf

/-- Counterexample to C2: when store "A"'s persistence transaction fails,
the rollback does leave the database unchanged, but the crawl loop does
not proceed to the next store — the run ends fatally (the `?` on the
persistence call propagates the error out of `start_parsing`) and store
"B" is never crawled. -/
theorem C2_counterexample :
    c2run = ⟨[.storeCrawled 0 0 "A", .persistFailed 0 0 "A"], dbEmpty, .fatal⟩ := by
  decide

/-- C2 (amended): a statement failure inside the per-store transaction
rolls the whole transaction back — the database visible after the call is
exactly the database from before it, so no store, product or price-history
row of that store-pass is committed — but the caller does not treat this as
non-fatal: the error propagates out of the crawl loop, the remaining
coordinates are not processed, and the run ends fatally. -/
theorem C2_rollback_and_fatal_propagation :
    ∀ (pass iters : Nat) (db : DB) (seen : List String) (env : CoordEnv)
      (info : StoreInfo) (rest : List CoordEnv),
      env.lookup = .found info →
      info.id ∉ seen →
      pyaterochka_insert_data db info (collectCatalogs env.crawl)
        env.crawl.now env.crawl.persistFail = .error () →
      runPass pass db seen iters (env :: rest) =
        ⟨[.storeCrawled pass iters info.id, .persistFailed pass iters info.id],
         db, iters + 1, .fatal⟩ := by
  intro pass iters db seen env info rest hlook hseen herr
  obtain ⟨lk, cr⟩ := env
  have hlk : lk = .found info := hlook
  subst hlk
  have hc : runCoord pass iters db seen ⟨.found info, cr⟩ =
      ⟨[.storeCrawled pass iters info.id, .persistFailed pass iters info.id],
       db, info.id :: seen, .fatal⟩ := by
    simp only [runCoord]
    rw [if_neg hseen, herr]
  simp only [runPass, hc]

/-- Witness for C2 (amended): the failing iteration of the refuting run. -/
theorem C2_witness :
    runPass 0 dbEmpty [] 0 [coordAFail, coordB] =
      ⟨[.storeCrawled 0 0 "A", .persistFailed 0 0 "A"], dbEmpty, 1, .fatal⟩ :=
  C2_rollback_and_fatal_propagation 0 0 dbEmpty [] coordAFail infoA [coordB]
    rfl (by decide) rfl

/-- Counterexample to C3: the signal is available from iteration count 1 on
— before the crawl of store "B" begins — yet that crawl still begins (one
store crawl starts at iteration index ≥ 1) because the loop checks the
signal only at the top of each pass; the loop exits at the next pass
boundary.  Under the claim, the loop would exit after the in-flight store,
so no store crawl could begin at or after signal availability. -/
theorem C3_counterexample :
    signalReady (some 1) 1 = true ∧
    crawlsAtOrAfter 1 c3run.events = 1 ∧
    c3run.outcome = .graceful := by
  refine ⟨rfl, by decide, by decide⟩

/-- C3 (amended): the interrupt signal is observed only at the top of each
pass over the coordinate list — between passes, not between store
iterations.  If the signal arrived before a pass begins, the loop exits at
once with no further events; otherwise the whole in-flight pass (all of its
remaining store iterations) runs before the signal can be observed again,
so cancellation latency is bounded by one full pass, not by one store's
crawl. -/
theorem C3_signal_checked_only_between_passes :
    ∀ (sa : Option Nat) (pass iters : Nat) (db : DB) (envs : List CoordEnv)
      (rest : List (List CoordEnv)),
      (signalReady sa iters = true →
        runLoop sa pass iters db (envs :: rest) = ⟨[], db, .graceful⟩) ∧
      (signalReady sa iters = false →
        (runPass pass db [] iters envs).ctl = .next →
        runLoop sa pass iters db (envs :: rest) =
          ⟨(runPass pass db [] iters envs).events ++
            (runLoop sa (pass + 1) (runPass pass db [] iters envs).iters
              (runPass pass db [] iters envs).db rest).events,
           (runLoop sa (pass + 1) (runPass pass db [] iters envs).iters
             (runPass pass db [] iters envs).db rest).db,
           (runLoop sa (pass + 1) (runPass pass db [] iters envs).iters
             (runPass pass db [] iters envs).db rest).outcome⟩) := by
  intro sa pass iters db envs rest
  constructor
  · intro h
    simp only [runLoop, h, if_true]
  · intro h hctl
    simp only [runLoop, h, Bool.false_eq_true, if_false]
    rw [hctl]

/-- Witness for C3 (amended): with the signal already delivered, the loop
exits at the pass top without crawling anything. -/
theorem C3_witness :
    runLoop (some 0) 0 0 dbEmpty [[coordA], []] = ⟨[], dbEmpty, .graceful⟩ :=
  (C3_signal_checked_only_between_passes (some 0) 0 0 dbEmpty [coordA] [[]]).1 rfl

/-- Counterexample to C7: a content-element read failure is not recoverable
— the `.unwrap()` panics, the run ends as `panicked` and the next
coordinate (store "B") is never processed, contradicting "logged and the
loop continues with the next coordinate; no store-lookup failure for a
single coordinate terminates the process". -/
theorem C7_counterexample : c7run = ⟨[], dbEmpty, .panicked⟩ := by decide

/-- C7 (amended): of the three store-lookup failure modes, the content
block not rendering within the bounded wait and the content not decoding
as the store-info schema are recoverable — logged, and the loop continues
with the next coordinate — but a content-element read failure after a
successful wait is not: a failed element find panics the process, and a
failed element text read propagates fatally out of the crawl loop. -/
theorem C7_lookup_failure_modes :
    ∀ (pass iters : Nat) (db : DB) (seen : List String) (env : CoordEnv)
      (rest : List CoordEnv),
      (env.lookup = .pageErr →
        runPass pass db seen iters (env :: rest) =
          ⟨.lookupFailed pass iters :: (runPass pass db seen (iters + 1) rest).events,
           (runPass pass db seen (iters + 1) rest).db,
           (runPass pass db seen (iters + 1) rest).iters,
           (runPass pass db seen (iters + 1) rest).ctl⟩) ∧
      (env.lookup = .decodeErr →
        runPass pass db seen iters (env :: rest) =
          ⟨.lookupFailed pass iters :: (runPass pass db seen (iters + 1) rest).events,
           (runPass pass db seen (iters + 1) rest).db,
           (runPass pass db seen (iters + 1) rest).iters,
           (runPass pass db seen (iters + 1) rest).ctl⟩) ∧
      (env.lookup = .elementErr →
        runPass pass db seen iters (env :: rest) = ⟨[], db, iters + 1, .panicked⟩) ∧
      (env.lookup = .innerTextErr →
        runPass pass db seen iters (env :: rest) = ⟨[], db, iters + 1, .fatal⟩) := by
  intro pass iters db seen env rest
  obtain ⟨lk, cr⟩ := env
  refine ⟨?_, ?_, ?_, ?_⟩ <;> intro hlk <;>
    (have h2 := hlk; subst h2; rfl)

/-- Witness for C7 (amended): the element-read failure panics and the
remaining coordinate is never processed. -/
theorem C7_witness :
    runPass 0 dbEmpty [] 0 [coordElemErr, coordB] = ⟨[], dbEmpty, 1, .panicked⟩ :=
  (C7_lookup_failure_modes 0 0 dbEmpty [] coordElemErr [coordB]).2.2.1 rfl

/-! ### Per-pass store dedup -/

theorem fmCrawl_lookupFailed (p i : Nat) (es : List Event) :
    (Event.lookupFailed p i :: es).filterMap crawlIdOf = es.filterMap crawlIdOf := rfl

theorem fmCrawl_storeSkipped (p i : Nat) (id : String) (es : List Event) :
    (Event.storeSkipped p i id :: es).filterMap crawlIdOf = es.filterMap crawlIdOf := rfl

theorem fmCrawl_storeCrawled (p i : Nat) (id : String) (es : List Event) :
    (Event.storeCrawled p i id :: es).filterMap crawlIdOf =
      id :: es.filterMap crawlIdOf := rfl

theorem fmCrawl_persistOk (p i : Nat) (id : String) (es : List Event) :
    (Event.persistOk p i id :: es).filterMap crawlIdOf = es.filterMap crawlIdOf := rfl

theorem fmCrawl_persistFailed (p i : Nat) (id : String) (es : List Event) :
    (Event.persistFailed p i id :: es).filterMap crawlIdOf =
      es.filterMap crawlIdOf := rfl

theorem fmPersist_lookupFailed (p i : Nat) (es : List Event) :
    (Event.lookupFailed p i :: es).filterMap persistIdOf =
      es.filterMap persistIdOf := rfl

theorem fmPersist_storeSkipped (p i : Nat) (id : String) (es : List Event) :
    (Event.storeSkipped p i id :: es).filterMap persistIdOf =
      es.filterMap persistIdOf := rfl

theorem fmPersist_storeCrawled (p i : Nat) (id : String) (es : List Event) :
    (Event.storeCrawled p i id :: es).filterMap persistIdOf =
      es.filterMap persistIdOf := rfl

theorem fmPersist_persistOk (p i : Nat) (id : String) (es : List Event) :
    (Event.persistOk p i id :: es).filterMap persistIdOf =
      id :: es.filterMap persistIdOf := rfl

theorem fmPersist_persistFailed (p i : Nat) (id : String) (es : List Event) :
    (Event.persistFailed p i id :: es).filterMap persistIdOf =
      id :: es.filterMap persistIdOf := rfl

/-- Within one pass, the ids of crawled stores are pairwise distinct and
disjoint from the incoming seen-id set, and a persistence attempt happens
exactly for the crawled stores, in the same order. -/
theorem runPass_crawl_facts (envs : List CoordEnv) :
    ∀ (pass iters : Nat) (db : DB) (seen : List String),
      ((runPass pass db seen iters envs).events.filterMap crawlIdOf).Nodup ∧
      (∀ id, id ∈ (runPass pass db seen iters envs).events.filterMap crawlIdOf →
        id ∉ seen) ∧
      (runPass pass db seen iters envs).events.filterMap persistIdOf =
        (runPass pass db seen iters envs).events.filterMap crawlIdOf := by
  induction envs with
  | nil =>
    intro pass iters db seen
    exact ⟨List.nodup_nil, fun id h => absurd h (List.not_mem_nil id), rfl⟩
  | cons env rest ih =>
    intro pass iters db seen
    obtain ⟨lk, cr⟩ := env
    cases lk with
    | pageErr =>
      obtain ⟨h1, h2, h3⟩ := ih pass (iters + 1) db seen
      refine ⟨?_, ?_, ?_⟩
      · simpa only [runPass, runCoord, fmCrawl_lookupFailed] using h1
      · simpa only [runPass, runCoord, fmCrawl_lookupFailed] using h2
      · simpa only [runPass, runCoord, fmCrawl_lookupFailed,
          fmPersist_lookupFailed] using h3
    | decodeErr =>
      obtain ⟨h1, h2, h3⟩ := ih pass (iters + 1) db seen
      refine ⟨?_, ?_, ?_⟩
      · simpa only [runPass, runCoord, fmCrawl_lookupFailed] using h1
      · simpa only [runPass, runCoord, fmCrawl_lookupFailed] using h2
      · simpa only [runPass, runCoord, fmCrawl_lookupFailed,
          fmPersist_lookupFailed] using h3
    | elementErr =>
      exact ⟨List.nodup_nil, fun id h => absurd h (List.not_mem_nil id), rfl⟩
    | innerTextErr =>
      exact ⟨List.nodup_nil, fun id h => absurd h (List.not_mem_nil id), rfl⟩
    | found info =>
      by_cases hmem : info.id ∈ seen
      · have hc : runCoord pass iters db seen ⟨.found info, cr⟩ =
            ⟨[.storeSkipped pass iters info.id], db, seen, .next⟩ := by
          simp only [runCoord]
          rw [if_pos hmem]
        obtain ⟨h1, h2, h3⟩ := ih pass (iters + 1) db seen
        refine ⟨?_, ?_, ?_⟩
        · simpa only [runPass, hc, List.cons_append, List.nil_append,
            fmCrawl_storeSkipped] using h1
        · simpa only [runPass, hc, List.cons_append, List.nil_append,
            fmCrawl_storeSkipped] using h2
        · simpa only [runPass, hc, List.cons_append, List.nil_append,
            fmCrawl_storeSkipped, fmPersist_storeSkipped] using h3
      · cases hins : pyaterochka_insert_data db info (collectCatalogs cr)
            cr.now cr.persistFail with
        | ok db1 =>
          have hc : runCoord pass iters db seen ⟨.found info, cr⟩ =
              ⟨[.storeCrawled pass iters info.id, .persistOk pass iters info.id],
               db1, info.id :: seen, .next⟩ := by
            simp only [runCoord]
            rw [if_neg hmem, hins]
          obtain ⟨h1, h2, h3⟩ := ih pass (iters + 1) db1 (info.id :: seen)
          have hni : info.id ∉
              (runPass pass db1 (info.id :: seen) (iters + 1) rest).events.filterMap
                crawlIdOf := by
            intro hin
            exact absurd (List.mem_cons_self info.id seen) (h2 info.id hin)
          refine ⟨?_, ?_, ?_⟩
          · simp only [runPass, hc, List.cons_append, List.nil_append,
              fmCrawl_storeCrawled, fmCrawl_persistOk]
            exact List.nodup_cons.2 ⟨hni, h1⟩
          · simp only [runPass, hc, List.cons_append, List.nil_append,
              fmCrawl_storeCrawled, fmCrawl_persistOk]
            intro id hid
            rcases List.mem_cons.1 hid with hhead | htail
            · subst hhead
              exact hmem
            · intro hsn
              exact h2 id htail (List.mem_cons_of_mem _ hsn)
          · simp only [runPass, hc, List.cons_append, List.nil_append,
              fmCrawl_storeCrawled, fmCrawl_persistOk, fmPersist_storeCrawled,
              fmPersist_persistOk]
            exact congrArg (info.id :: ·) h3
        | error e =>
          have hc : runCoord pass iters db seen ⟨.found info, cr⟩ =
              ⟨[.storeCrawled pass iters info.id, .persistFailed pass iters info.id],
               db, info.id :: seen, .fatal⟩ := by
            simp only [runCoord]
            rw [if_neg hmem, hins]
          refine ⟨?_, ?_, ?_⟩
          · simp only [runPass, hc, fmCrawl_storeCrawled, fmCrawl_persistFailed]
            exact List.nodup_cons.2 ⟨List.not_mem_nil _, List.nodup_nil⟩
          · simp only [runPass, hc, fmCrawl_storeCrawled, fmCrawl_persistFailed]
            intro id hid
            rcases List.mem_cons.1 hid with hhead | htail
            · subst hhead
              exact hmem
            · exact absurd htail (List.not_mem_nil id)
          · simp only [runPass, hc, fmCrawl_storeCrawled, fmCrawl_persistFailed,
              fmPersist_storeCrawled, fmPersist_persistFailed]
            rfl

/-- C6: within one pass over the coordinate list, the catalog crawl and
persistence execute at most once per store id (the crawled-store id list of
a pass has no duplicates, and persistence attempts match crawls
one-to-one); a store whose id is already in the per-pass seen-id set is
skipped without crawling or persisting and without touching the database;
and the seen-id set is reset at the start of each new pass, so the same
store is crawled again in the next pass. -/
theorem C6_per_pass_store_dedup :
    (∀ (pass iters : Nat) (db : DB) (envs : List CoordEnv),
      ((runPass pass db [] iters envs).events.filterMap crawlIdOf).Nodup ∧
      (runPass pass db [] iters envs).events.filterMap persistIdOf =
        (runPass pass db [] iters envs).events.filterMap crawlIdOf) ∧
    (∀ (pass iters : Nat) (db : DB) (seen : List String) (env : CoordEnv)
      (info : StoreInfo),
      env.lookup = .found info → info.id ∈ seen →
      runCoord pass iters db seen env =
        ⟨[.storeSkipped pass iters info.id], db, seen, .next⟩) ∧
    (runLoop none 0 0 dbEmpty [[coordA], [coordA]]).events.filterMap crawlIdOf =
      ["A", "A"] := by
  refine ⟨?_, ?_, by decide⟩
  · intro pass iters db envs
    obtain ⟨h1, _, h3⟩ := runPass_crawl_facts envs pass iters db []
    exact ⟨h1, h3⟩
  · intro pass iters db seen env info hlk hmem
    obtain ⟨lk, cr⟩ := env
    have h2 : lk = .found info := hlk
    subst h2
    simp only [runCoord]
    rw [if_pos hmem]

/-- Witness for C6: a coordinate resolving to the already-seen store "A"
is skipped without crawling. -/
theorem C6_witness :
    runCoord 0 1 dbEmpty ["A"] coordA =
      ⟨[.storeSkipped 0 1 "A"], dbEmpty, ["A"], .next⟩ :=
  C6_per_pass_store_dedup.2.1 0 1 dbEmpty ["A"] coordA infoA rfl (by decide)

/-! ### Cookie seeding of the session-refresh step -/

/-- Counterexample to C8: with no explicitly configured cookie path, a
prior cookie file sitting at the default filename is not loaded — the
session-refresh trace contains no `setCookies` action at all, and the
default filename is only written to.  (Seeding happens only under
`if let Some(path) = cookies_store_path`.) -/
theorem C8_counterexample :
    (fsDefaultCookie DEFAULT_COOKIES_PATH).isSome = true ∧
    parseOneCookie "[c]" = some ["c1"] ∧
    pyaterochka_update_cookies fsDefaultCookie parseOneCookie none =
      .ok [.launchInteractive, .navigateHome,
        .saveCookies DEFAULT_COOKIES_PATH, .closeInteractive] := by
  refine ⟨rfl, rfl, rfl⟩

/-- C8 (amended): when the cookie store path is explicitly configured and a
file exists there that decodes to a non-empty cookie list, the
session-refresh step sets those cookies on the interactive browser context
before navigating to the home page; when no path is configured, no prior
cookies are loaded — a file at the default filename is used only for
saving, never for seeding. -/
theorem C8_cookie_seeding :
    (∀ (fs : String → Option String) (parse : String → Option (List Cookie))
       (path contents : String) (cookies : List Cookie),
      fs path = some contents →
      parse contents = some cookies →
      cookies ≠ [] →
      pyaterochka_update_cookies fs parse (some path) =
        .ok [.launchInteractive, .setCookies cookies, .navigateHome,
          .saveCookies path, .closeInteractive]) ∧
    (∀ (fs : String → Option String) (parse : String → Option (List Cookie)),
      pyaterochka_update_cookies fs parse none =
        .ok [.launchInteractive, .navigateHome,
          .saveCookies DEFAULT_COOKIES_PATH, .closeInteractive]) := by
  constructor
  · intro fs parse path contents cookies hfs hparse hne
    have hset : set_cookies_from_path fs parse path = .ok [.setCookies cookies] := by
      simp only [set_cookies_from_path, hfs, hparse]
      rw [if_neg ?_]
      intro hemp
      exact hne (List.isEmpty_iff.1 hemp)
    simp only [pyaterochka_update_cookies, hset]
    rfl
  · intro fs parse
    rfl

/-- Witness for C8 (amended): an explicitly configured path with an
existing decodable file is seeded before navigation. -/
theorem C8_witness :
    pyaterochka_update_cookies fsDefaultCookie parseOneCookie
        (some DEFAULT_COOKIES_PATH) =
      .ok [.launchInteractive, .setCookies ["c1"], .navigateHome,
        .saveCookies DEFAULT_COOKIES_PATH, .closeInteractive] :=
  C8_cookie_seeding.1 fsDefaultCookie parseOneCookie DEFAULT_COOKIES_PATH
    "[c]" ["c1"] rfl rfl (by decide)

/-- Witness for C10: a concrete database holding product "p1" with
inserted_at 11 keeps that value through a persistence call that updates
the row. -/
theorem C10_witness :
    ∃ q2,
      productsFind
        (applyTx
          ⟨[], [⟨"p1", "old", "oldcat", none, none, none, none, none, 5, 11⟩], []⟩
          ⟨"S", "a", "c"⟩
          [⟨⟨"cid", "cat1", ["B"], [⟨"p1", "B thing", 10, 9, none, none, none, none⟩]⟩, 42⟩]
          7).products "p1" = some q2 ∧
      q2.inserted_at = 11 ∧
      (∀ e, lastMatch (passEntries
          [⟨⟨"cid", "cat1", ["B"], [⟨"p1", "B thing", 10, 9, none, none, none, none⟩]⟩, 42⟩])
          "p1" = some e →
        q2 = updColumns ⟨"p1", "old", "oldcat", none, none, none, none, none, 5, 11⟩ e.1 e.2) ∧
      (lastMatch (passEntries
          [⟨⟨"cid", "cat1", ["B"], [⟨"p1", "B thing", 10, 9, none, none, none, none⟩]⟩, 42⟩])
          "p1" = none →
        q2 = ⟨"p1", "old", "oldcat", none, none, none, none, none, 5, 11⟩) :=
  C10_upsert_keeps_inserted_at
    ⟨[], [⟨"p1", "old", "oldcat", none, none, none, none, none, 5, 11⟩], []⟩
    ⟨"S", "a", "c"⟩
    [⟨⟨"cid", "cat1", ["B"], [⟨"p1", "B thing", 10, 9, none, none, none, none⟩]⟩, 42⟩]
    7 "p1" ⟨"p1", "old", "oldcat", none, none, none, none, none, 5, 11⟩ _
    (by decide) rfl

end X5
